import Mathlib

/-!
Verification of the CI log classification core of the
Python-Based-Modular-CI-Monitoring-and-Alert-Explanation-System repository.

The Python sources are shallowly embedded: Python floats are modelled as
exact rationals (`ℚ`), Python dicts as association lists, Python sets of
segment ids as deduplicated lists, `hasattr`-style optional attributes as
`Option` fields, and in-place mutation (segment-id backfilling) as explicit
state passing.  `re.search`/`re.findall` are modelled by an abstract
`RegexEngine` parameter: every theorem below is quantified over the engine,
so nothing depends on concrete regex semantics.
-/

namespace CICore

/-- `core.root_cause_prediction.RootCausePrediction` as manipulated by the
classifier coordinator and fallback classifier (fields `label`, `confidence`,
`segment_ids`, `supporting_tokens`, `provider_context`, `classifier_id`).
The free-form `metadata` dict is diagnostic only and outside the model;
`provider_context` is an association list standing for the Python dict. -/
structure RootCausePrediction where
  label : String
  confidence : ℚ
  segment_ids : List String
  supporting_tokens : List String
  provider_context : List (String × String)
  classifier_id : String
  deriving DecidableEq

/-- Python `set(l)`: the distinct elements of `l` (first-occurrence order). -/
def setIds (l : List String) : List String := l.dedup

/-- Size of `a ∩ b` for deduplicated lists, as in `len(a.intersection(b))`. -/
def interCard (a b : List String) : Nat := (a.filter (fun x => x ∈ b)).length

/-- `a.union(b)` on deduplicated lists (Python `set.union` / `set.update`). -/
def unionList (a b : List String) : List String := a ++ b.filter (fun x => ¬ x ∈ a)

/-- Jaccard similarity `len(intersection) / len(union)` from
`ClassifierCoordinator._group_overlapping_predictions` (division by zero,
which the Python guard rules out, is the `ℚ` convention `x / 0 = 0`). -/
def jaccardQ (a b : List String) : ℚ := (interCard a b : ℚ) / ((unionList a b).length : ℚ)

section PySort

variable {α : Type}

/-- One insertion step of a stable descending sort keyed by `f`: the element
goes after every element with a key `≥` its own, as Python's stable
`list.sort(key=..., reverse=True)` orders equal keys. -/
def insertDescBy (f : α → ℚ) (p : α) : List α → List α
  | [] => [p]
  | q :: qs => if f p ≤ f q then q :: insertDescBy f p qs else p :: q :: qs

/-- Tail of the stable descending insertion sort. -/
def sortDescAux (f : α → ℚ) : List α → List α → List α
  | acc, [] => acc
  | acc, p :: ps => sortDescAux f (insertDescBy f p acc) ps

/-- Python's stable `list.sort(key=f, reverse=True)` as an insertion sort. -/
def sortDescBy (f : α → ℚ) (l : List α) : List α := sortDescAux f [] l

/-- Python `max(l, key=f)`: first element of maximal key (later elements
replace the current best only on a strictly greater key). -/
def pyMaxBy (f : α → ℚ) : α → List α → α
  | best, [] => best
  | best, p :: ps => if f best < f p then pyMaxBy f p ps else pyMaxBy f best ps

theorem mem_insertDescBy (f : α → ℚ) (p x : α) (l : List α) :
    x ∈ insertDescBy f p l ↔ x = p ∨ x ∈ l := by
  induction l with
  | nil => simp [insertDescBy]
  | cons q qs ih =>
      by_cases h : f p ≤ f q
      · simp [insertDescBy, h, ih]
        tauto
      · simp [insertDescBy, h, ih]

theorem length_insertDescBy (f : α → ℚ) (p : α) (l : List α) :
    (insertDescBy f p l).length = l.length + 1 := by
  induction l with
  | nil => rfl
  | cons q qs ih =>
      by_cases h : f p ≤ f q <;> simp [insertDescBy, h, ih]

theorem pairwise_insertDescBy (f : α → ℚ) (p : α) (l : List α)
    (h : l.Pairwise (fun a b => f b ≤ f a)) :
    (insertDescBy f p l).Pairwise (fun a b => f b ≤ f a) := by
  induction l with
  | nil => simp [insertDescBy]
  | cons q qs ih =>
      rcases List.pairwise_cons.mp h with ⟨hq, hqs⟩
      by_cases hpq : f p ≤ f q
      · simp only [insertDescBy, if_pos hpq]
        refine List.pairwise_cons.mpr ⟨?_, ih hqs⟩
        intro x hx
        rcases (mem_insertDescBy f p x qs).mp hx with rfl | hx
        · exact hpq
        · exact hq x hx
      · simp only [insertDescBy, if_neg hpq]
        refine List.pairwise_cons.mpr ⟨?_, h⟩
        intro x hx
        rcases List.mem_cons.mp hx with rfl | hx
        · exact le_of_lt (lt_of_not_le hpq)
        · exact le_trans (hq x hx) (le_of_lt (lt_of_not_le hpq))

theorem pairwise_sortDescAux (f : α → ℚ) (l acc : List α)
    (h : acc.Pairwise (fun a b => f b ≤ f a)) :
    (sortDescAux f acc l).Pairwise (fun a b => f b ≤ f a) := by
  induction l generalizing acc with
  | nil => exact h
  | cons p ps ih => exact ih _ (pairwise_insertDescBy f p acc h)

/-- The stable descending sort is sorted: keys are non-increasing. -/
theorem pairwise_sortDescBy (f : α → ℚ) (l : List α) :
    (sortDescBy f l).Pairwise (fun a b => f b ≤ f a) :=
  pairwise_sortDescAux f l [] (by simp)

theorem mem_sortDescAux (f : α → ℚ) (l : List α) (acc : List α) (x : α) :
    x ∈ sortDescAux f acc l ↔ x ∈ acc ∨ x ∈ l := by
  induction l generalizing acc with
  | nil => simp [sortDescAux]
  | cons p ps ih =>
      simp only [sortDescAux, ih, mem_insertDescBy, List.mem_cons]
      tauto

theorem mem_sortDescBy (f : α → ℚ) (l : List α) (x : α) :
    x ∈ sortDescBy f l ↔ x ∈ l := by
  simp [sortDescBy, mem_sortDescAux]

theorem length_sortDescAux (f : α → ℚ) (l acc : List α) :
    (sortDescAux f acc l).length = acc.length + l.length := by
  induction l generalizing acc with
  | nil => simp [sortDescAux]
  | cons p ps ih => simp [sortDescAux, ih, length_insertDescBy]; omega

theorem length_sortDescBy (f : α → ℚ) (l : List α) :
    (sortDescBy f l).length = l.length := by
  simp [sortDescBy, length_sortDescAux]

/-- Inserting an element whose key is `c` appends it after every element of a
descending-sorted list with key `c`; inserting any other key leaves the
key-`c` subsequence unchanged. -/
theorem filter_insertDescBy (f : α → ℚ) (c : ℚ) (p : α) (l : List α)
    (h : l.Pairwise (fun a b => f b ≤ f a)) :
    (insertDescBy f p l).filter (fun x => f x == c)
      = if f p = c then l.filter (fun x => f x == c) ++ [p]
        else l.filter (fun x => f x == c) := by
  induction l with
  | nil =>
      by_cases hc : f p = c
      · simp [insertDescBy, List.filter, hc]
      · have : (f p == c) = false := by simp [hc]
        simp [insertDescBy, List.filter, this, hc]
  | cons q qs ih =>
      rcases List.pairwise_cons.mp h with ⟨hq, hqs⟩
      by_cases hpq : f p ≤ f q
      · simp only [insertDescBy, if_pos hpq]
        by_cases hqc : f q = c
        · simp only [List.filter_cons, hqc, beq_self_eq_true, if_pos, ih hqs]
          by_cases hc : f p = c <;> simp [hc]
        · have : (f q == c) = false := by simp [hqc]
          simp [List.filter_cons, this, ih hqs]
      · have hlt : f q < f p := lt_of_not_le hpq
        simp only [insertDescBy, if_neg hpq]
        by_cases hc : f p = c
        · -- every element of `q :: qs` has key `≤ f q < f p = c`, so the
          -- key-`c` subsequence of the tail is empty
          have hnone : ∀ x ∈ q :: qs, f x ≠ c := by
            intro x hx
            rcases List.mem_cons.mp hx with rfl | hx
            · exact fun hxc => absurd (hc ▸ hxc) (ne_of_lt hlt)
            · exact fun hxc =>
                absurd (hc ▸ hxc) (ne_of_lt (lt_of_le_of_lt (hq x hx) hlt))
          have hempty : (q :: qs).filter (fun x => f x == c) = [] := by
            apply List.filter_eq_nil_iff.mpr
            intro x hx
            simp [hnone x hx]
          simp [List.filter_cons, hempty, hc]
        · have : (f p == c) = false := by simp [hc]
          simp [List.filter_cons, this, hc]

theorem filter_sortDescAux (f : α → ℚ) (c : ℚ) (l acc : List α)
    (h : acc.Pairwise (fun a b => f b ≤ f a)) :
    (sortDescAux f acc l).filter (fun x => f x == c)
      = acc.filter (fun x => f x == c) ++ l.filter (fun x => f x == c) := by
  induction l generalizing acc with
  | nil => simp [sortDescAux]
  | cons p ps ih =>
      simp only [sortDescAux]
      rw [ih _ (pairwise_insertDescBy f p acc h),
        filter_insertDescBy f c p acc h]
      by_cases hc : f p = c
      · simp [List.filter_cons, hc]
      · have : (f p == c) = false := by simp [hc]
        simp [List.filter_cons, this, hc]

/-- Stability of the modelled Python sort: for every key value `c`, the
elements with key `c` appear in the output in their input order. -/
theorem filter_sortDescBy (f : α → ℚ) (c : ℚ) (l : List α) :
    (sortDescBy f l).filter (fun x => f x == c) = l.filter (fun x => f x == c) := by
  simpa using filter_sortDescAux f c l [] (by simp)

theorem pyMaxBy_mem (f : α → ℚ) (best : α) (l : List α) :
    pyMaxBy f best l = best ∨ pyMaxBy f best l ∈ l := by
  induction l generalizing best with
  | nil => exact Or.inl rfl
  | cons p ps ih =>
      by_cases h : f best < f p
      · simp only [pyMaxBy, if_pos h]
        rcases ih p with h1 | h1
        · exact Or.inr (by simp [h1])
        · exact Or.inr (List.mem_cons_of_mem _ h1)
      · simp only [pyMaxBy, if_neg h]
        rcases ih best with h1 | h1
        · exact Or.inl h1
        · exact Or.inr (List.mem_cons_of_mem _ h1)

theorem pyMaxBy_le (f : α → ℚ) (best : α) (l : List α) :
    f best ≤ f (pyMaxBy f best l) ∧ ∀ x ∈ l, f x ≤ f (pyMaxBy f best l) := by
  induction l generalizing best with
  | nil => exact ⟨le_refl _, by simp⟩
  | cons p ps ih =>
      by_cases h : f best < f p
      · simp only [pyMaxBy, if_pos h]
        refine ⟨le_trans (le_of_lt h) (ih p).1, ?_⟩
        intro x hx
        rcases List.mem_cons.mp hx with rfl | hx
        · exact (ih x).1
        · exact (ih p).2 x hx
      · simp only [pyMaxBy, if_neg h]
        refine ⟨(ih best).1, ?_⟩
        intro x hx
        rcases List.mem_cons.mp hx with rfl | hx
        · exact le_trans (le_of_not_lt h) (ih best).1
        · exact (ih best).2 x hx

end PySort

open RootCausePrediction in
/-- `ClassifierCoordinator.__init__` defaults
(`classifier_coordinator.py`, lines 20-60). -/
structure ClassifierCoordinator where
  base_confidence_threshold : ℚ := 0.6
  conflict_resolution_strategy : String := "weighted_score"
  label_priority_map : List (String × ℚ) :=
    [("SECURITY_VIOLATION", 5.0), ("OUT_OF_MEMORY", 4.0), ("PERMISSION_DENIED", 3.5),
     ("TEST_FAILURE", 3.0), ("BUILD_FAILURE", 2.5), ("MISSING_DEPENDENCY", 2.0),
     ("TIMEOUT", 1.5), ("CONFIGURATION_ERROR", 1.2), ("UNKNOWN", 1.0)]
  segment_overlap_threshold : ℚ := 0.5

namespace ClassifierCoordinator

/-- `_calculate_weighted_score` (lines 180-207):
`confidence × label_priority × evidence_factor × provider_factor`. -/
def calculateWeightedScore (c : ClassifierCoordinator) (p : RootCausePrediction) : ℚ :=
  let label_priority := ((c.label_priority_map.lookup p.label).getD 1.0)
  let evidence_factor : ℚ :=
    min 1.0 (0.8 + 0.05 * (p.supporting_tokens.length : ℚ)
      + 0.02 * (p.segment_ids.length : ℚ))
  let provider_factor : ℚ :=
    if p.provider_context ≠ [] ∧
        (p.provider_context.lookup "provider")
          ∈ [some "github", some "gitlab", some "jenkins", some "travis"]
      then 1.05 else 1.0
  p.confidence * label_priority * evidence_factor * provider_factor

/-- `self.scoring_functions.get(strategy, weighted_score)` (lines 56-60 and
164-167): unknown strategies fall back to the weighted score. -/
def scoreFn (c : ClassifierCoordinator) (p : RootCausePrediction) : ℚ :=
  if c.conflict_resolution_strategy = "highest_confidence" then p.confidence
  else if c.conflict_resolution_strategy = "priority_label" then
    (c.label_priority_map.lookup p.label).getD 0.0
  else calculateWeightedScore c p

/-- `_resolve_conflict` (lines 147-178): `none` models the `ValueError` on an
empty group (never reached from `coordinate`); a singleton is returned as is;
otherwise Python `max(..., key=score_fn)` picks the first maximal element. -/
def resolveConflict (c : ClassifierCoordinator) :
    List RootCausePrediction → Option RootCausePrediction
  | [] => none
  | [p] => some p
  | p :: ps => some (pyMaxBy (scoreFn c) p ps)

/-- Inner scan of `_group_overlapping_predictions` (lines 122-141): walk the
still-ungrouped predictions in index order; a prediction joins the current
group when both segment-id sets are non-empty and the Jaccard similarity
against the group's accumulated id set reaches the threshold (the accumulated
set is then enlarged by `current_segments.update`).  Returns the absorbed
members and the leftover, both in input order. -/
def absorb (thr : ℚ) (current : List String) :
    List RootCausePrediction → List RootCausePrediction × List RootCausePrediction
  | [] => ([], [])
  | p :: ps =>
      let s := setIds p.segment_ids
      if s ≠ [] ∧ current ≠ [] ∧ thr ≤ jaccardQ current s then
        let r := absorb thr (unionList current s) ps
        (p :: r.1, r.2)
      else
        let r := absorb thr current ps
        (r.1, p :: r.2)

theorem absorb_snd_length (thr : ℚ) (current : List String)
    (l : List RootCausePrediction) : (absorb thr current l).2.length ≤ l.length := by
  induction l generalizing current with
  | nil => simp [absorb]
  | cons p ps ih =>
      simp only [absorb]
      split
      · exact Nat.le_succ_of_le (ih _)
      · simpa using Nat.succ_le_succ (ih _)

theorem absorb_snd_subset (thr : ℚ) (current : List String)
    (l : List RootCausePrediction) : ∀ p ∈ (absorb thr current l).2, p ∈ l := by
  induction l generalizing current with
  | nil => simp [absorb]
  | cons q qs ih =>
      simp only [absorb]
      split
      · intro p hp
        exact List.mem_cons_of_mem _ (ih _ p hp)
      · intro p hp
        rcases List.mem_cons.mp hp with rfl | hp
        · exact List.mem_cons_self _ _
        · exact List.mem_cons_of_mem _ (ih _ p hp)

theorem absorb_fst_subset (thr : ℚ) (current : List String)
    (l : List RootCausePrediction) : ∀ p ∈ (absorb thr current l).1, p ∈ l := by
  induction l generalizing current with
  | nil => simp [absorb]
  | cons q qs ih =>
      simp only [absorb]
      split
      · intro p hp
        rcases List.mem_cons.mp hp with rfl | hp
        · exact List.mem_cons_self _ _
        · exact List.mem_cons_of_mem _ (ih _ p hp)
      · intro p hp
        exact List.mem_cons_of_mem _ (ih _ p hp)

/-- When nothing was absorbed, the accumulated set never grew, so every
leftover prediction failed the join test against `current` itself. -/
theorem absorb_none_spec (thr : ℚ) (current : List String)
    (l : List RootCausePrediction) (h : (absorb thr current l).1 = []) :
    (absorb thr current l).2 = l ∧
      ∀ p ∈ l, ¬ (setIds p.segment_ids ≠ [] ∧ current ≠ [] ∧
        thr ≤ jaccardQ current (setIds p.segment_ids)) := by
  induction l generalizing current with
  | nil => simp [absorb]
  | cons q qs ih =>
      by_cases hq : setIds q.segment_ids ≠ [] ∧ current ≠ [] ∧
          thr ≤ jaccardQ current (setIds q.segment_ids)
      · exfalso
        simp only [absorb, if_pos hq] at h
        exact List.cons_ne_nil _ _ h
      · simp only [absorb, if_neg hq] at h ⊢
        rcases ih current h with ⟨h1, h2⟩
        refine ⟨by simp [h1], ?_⟩
        intro p hp
        rcases List.mem_cons.mp hp with rfl | hp
        · exact hq
        · exact h2 p hp

/-- Structural-recursion core of `_group_overlapping_predictions`: the fuel
(always instantiated to the list length, which `absorb_snd_length` shows is
never exhausted, see `groupGoFuel_fuel_irrelevant`) only serves as a
termination measure. -/
def groupGoFuel (thr : ℚ) : Nat → List RootCausePrediction →
    List (List RootCausePrediction)
  | _, [] => []
  | 0, _ :: _ => []
  | fuel + 1, p :: rest =>
      let r := absorb thr (setIds p.segment_ids) rest
      (p :: r.1) :: groupGoFuel thr fuel r.2

theorem groupGoFuel_nil (thr : ℚ) (fuel : Nat) : groupGoFuel thr fuel [] = [] := by
  cases fuel <;> rfl

theorem groupGoFuel_irrel (thr : ℚ) :
    ∀ (f1 f2 : Nat) (l : List RootCausePrediction), l.length ≤ f1 → l.length ≤ f2 →
      groupGoFuel thr f1 l = groupGoFuel thr f2 l := by
  intro f1
  induction f1 with
  | zero =>
      intro f2 l hl _
      rw [List.length_eq_zero.mp (Nat.le_zero.mp hl), groupGoFuel_nil, groupGoFuel_nil]
  | succ f1 ih =>
      intro f2 l hl1 hl2
      match l with
      | [] => rw [groupGoFuel_nil, groupGoFuel_nil]
      | p :: rest =>
          match f2 with
          | 0 => exact absurd hl2 (by simp)
          | f2 + 1 =>
              simp only [groupGoFuel]
              have hr : (absorb thr (setIds p.segment_ids) rest).2.length ≤ rest.length :=
                absorb_snd_length _ _ _
              rw [ih f2 _ (le_trans hr (by simpa using hl1)) (le_trans hr (by simpa using hl2))]

theorem groupGoFuel_fuel_irrelevant (thr : ℚ) (fuel : Nat)
    (l : List RootCausePrediction) (hl : l.length ≤ fuel) :
    groupGoFuel thr fuel l = groupGoFuel thr l.length l :=
  groupGoFuel_irrel thr fuel l.length l hl le_rfl

/-- `_group_overlapping_predictions` (lines 101-145): repeatedly seed a group
with the first ungrouped prediction and absorb overlapping ones. -/
def groupOverlappingPredictions (thr : ℚ) (l : List RootCausePrediction) :
    List (List RootCausePrediction) :=
  groupGoFuel thr l.length l

theorem groupOverlapping_nil (thr : ℚ) :
    groupOverlappingPredictions thr [] = [] := rfl

theorem groupOverlapping_cons (thr : ℚ) (p : RootCausePrediction)
    (rest : List RootCausePrediction) :
    groupOverlappingPredictions thr (p :: rest)
      = (p :: (absorb thr (setIds p.segment_ids) rest).1)
          :: groupOverlappingPredictions thr (absorb thr (setIds p.segment_ids) rest).2 := by
  simp only [groupOverlappingPredictions, List.length_cons, groupGoFuel]
  rw [groupGoFuel_fuel_irrelevant thr rest.length _ (absorb_snd_length _ _ _)]

theorem mem_groupOverlapping (thr : ℚ) :
    ∀ (n : Nat) (l : List RootCausePrediction), l.length ≤ n →
      ∀ g ∈ groupOverlappingPredictions thr l, ∀ p ∈ g, p ∈ l := by
  intro n
  induction n with
  | zero =>
      intro l hl
      rw [List.length_eq_zero.mp (Nat.le_zero.mp hl), groupOverlapping_nil]
      simp
  | succ n ih =>
      intro l hl g hg p hp
      match l with
      | [] => rw [groupOverlapping_nil] at hg; simp at hg
      | q :: rest =>
          rw [groupOverlapping_cons] at hg
          rcases List.mem_cons.mp hg with rfl | hg
          · rcases List.mem_cons.mp hp with rfl | hp
            · exact List.mem_cons_self _ _
            · exact List.mem_cons_of_mem _ (absorb_fst_subset thr _ rest p hp)
          · have hlen : (absorb thr (setIds q.segment_ids) rest).2.length ≤ n :=
              le_trans (absorb_snd_length _ _ _) (Nat.lt_succ_iff.mp (lt_of_lt_of_le (by simp) hl))
            exact List.mem_cons_of_mem _
              (absorb_snd_subset thr _ rest p (ih _ hlen g hg p hp))

/-- The pre-sort output of `coordinate`: threshold filter, overlap grouping,
conflict resolution (lines 75-94). -/
def coordResolved (c : ClassifierCoordinator) (predictions : List RootCausePrediction) :
    List RootCausePrediction :=
  let filtered := predictions.filter
    (fun p => c.base_confidence_threshold ≤ p.confidence)
  (groupOverlappingPredictions c.segment_overlap_threshold filtered).filterMap
    (resolveConflict c)

/-- `coordinate` (lines 62-99), including its two early returns; the final
`sort(key=confidence, reverse=True)` is Python's stable descending sort. -/
def coordinate (c : ClassifierCoordinator) (predictions : List RootCausePrediction) :
    List RootCausePrediction :=
  if predictions = [] then []
  else
    let filtered := predictions.filter
      (fun p => c.base_confidence_threshold ≤ p.confidence)
    if filtered = [] then []
    else
      sortDescBy (fun p => p.confidence)
        ((groupOverlappingPredictions c.segment_overlap_threshold filtered).filterMap
          (resolveConflict c))

/-- The early returns of `coordinate` return what the main path would anyway. -/
theorem coordinate_eq (c : ClassifierCoordinator) (predictions : List RootCausePrediction) :
    coordinate c predictions
      = sortDescBy (fun p => p.confidence) (coordResolved c predictions) := by
  by_cases h0 : predictions = []
  · simp [coordinate, coordResolved, h0, groupOverlapping_nil, sortDescBy,
      sortDescAux]
  · by_cases h1 : predictions.filter
        (fun p => c.base_confidence_threshold ≤ p.confidence) = []
    · simp [coordinate, coordResolved, h0, h1, groupOverlapping_nil,
        sortDescBy, sortDescAux]
    · simp [coordinate, coordResolved, h0, h1]

end ClassifierCoordinator

/-- A token as probed by the fallback classifier: both `token_type` and
`text` are accessed through `hasattr`, hence `Option` fields. -/
structure Tok where
  token_type : Option String
  text : Option String
  deriving DecidableEq

/-- A tokenized segment as dynamically probed by the classifiers
(`hasattr`/`getattr` throughout `fallback_classifier.py` and
`rule_conditions.py`): every attribute may be missing.  `pyid` models the
CPython object identity `id(segment)` used for the default segment id
`f"segment_\x7bid(segment)\x7d"`; it is fixed per segment object, so it is a plain
field of the value.  Provider attributes are modelled as absent-or-string. -/
structure Segment where
  id : Option String
  pyid : Nat
  score : Option ℚ
  text : Option String
  tokens : Option (List Tok)
  provider : Option String
  provider_name : Option String
  provider_version : Option String
  provider_config : Option String
  deriving DecidableEq

/-- `getattr(segment, 'id', f"segment_\x7bid(segment)\x7d")`. -/
def Segment.idAttr (s : Segment) : String := s.id.getD ("segment_" ++ toString s.pyid)

/-- Abstract interface for Python's `re` module: `search pattern text`
returns the span of the first match, `findall pattern text` the list of
group tuples.  All theorems are quantified over the engine, so no concrete
regex semantics are assumed. -/
structure RegexEngine where
  search : String → String → Option (Nat × Nat)
  findall : String → String → List (List String)

/-- `FallbackClassifier.__init__` defaults (`fallback_classifier.py`,
lines 19-26). -/
structure FallbackClassifier where
  confidence_ceiling : ℚ := 0.6
  enable_heuristics : Bool := true
  min_segment_score : ℚ := 0.4

namespace FallbackClassifier

/-- `self.heuristic_patterns` (lines 29-40). -/
def heuristic_patterns : List (String × String) :=
  [("permission denied|access denied|not authorized", "PERMISSION_DENIED"),
   ("out of memory|java\\.lang\\.OutOfMemoryError|Killed.*\\(Out of memory\\)", "OUT_OF_MEMORY"),
   ("No such file or directory|file not found|cannot find|missing file", "MISSING_FILE"),
   ("connection timed out|deadline exceeded|operation timed out", "TIMEOUT"),
   ("curl: \\(\\d+\\)|wget: .*failed|unable to download", "DOWNLOAD_FAILURE"),
   ("syntax error|unexpected token|unexpected end of input", "SYNTAX_ERROR"),
   ("version conflict|incompatible version|wrong version", "VERSION_CONFLICT"),
   ("config(?:uration)? (?:invalid|error|incorrect)", "CONFIGURATION_ERROR"),
   ("not enough (?:disk|space)|no space left on device", "DISK_SPACE"),
   ("network (?:error|unreachable|failure)|failed to connect", "NETWORK_ERROR")]

/-- `_suggest_label` (lines 114-162): best heuristic regex match, then
token-kind heuristics when no pattern matched. -/
def suggestLabel (fc : FallbackClassifier) (re : RegexEngine) (segment : Segment) :
    String × ℚ :=
  if ¬ fc.enable_heuristics ∨ segment.text = none ∨ segment.text = some "" then
    ("UNCLASSIFIED", 0.0)
  else
    let text := segment.text.getD ""
    let best := heuristic_patterns.foldl (fun best pl =>
      match re.search pl.1 text with
      | none => best
      | some sp =>
          let match_length : ℚ := (sp.2 : ℚ) - (sp.1 : ℚ)
          let matchFrac : ℚ := match_length / (text.length : ℚ)
          let confidence :=
            0.4 + matchFrac * 0.3 + (if pl.2 ≠ "UNCLASSIFIED" then (0.3 : ℚ) else 0)
          if best.2 < confidence then (pl.2, confidence) else best)
      ("UNCLASSIFIED", (0.0 : ℚ))
    if best.1 = "UNCLASSIFIED" ∧ segment.tokens ≠ none then
      let toks := segment.tokens.getD []
      let cnt := fun (ty : String) =>
        (toks.filter (fun t => t.token_type = some ty)).length
      if 0 < cnt "ERROR" ∧ 0 < cnt "COMMAND" then ("COMMAND_FAILURE", 0.3)
      else if 0 < cnt "ERROR" ∧ 0 < cnt "STACK_TRACE" then ("RUNTIME_ERROR", 0.4)
      else if 3 < cnt "WARNING" then ("CONFIGURATION_WARNING", 0.25)
      else best
    else best

/-- `_extract_diagnostic_tokens` (lines 164-220). -/
def extractDiagnosticTokens (re : RegexEngine) (segment : Segment) : List String :=
  let diagnostics : List String :=
    match segment.tokens with
    | none => []
    | some toks =>
        let error_tokens := toks.filterMap (fun t =>
          if t.token_type = some "ERROR" ∨ t.token_type = some "EXCEPTION" then t.text
          else none)
        let d := error_tokens.take 2
        let d :=
          if error_tokens = [] then
            d ++ (toks.filterMap (fun t =>
              if t.token_type = some "WARNING" then t.text else none)).take 2
          else d
        d ++ (toks.filterMap (fun t =>
          if t.token_type = some "EXIT_CODE" then t.text else none)).take 1
  let diagnostics :=
    if diagnostics = [] ∧ segment.text ≠ none ∧ segment.text ≠ some "" then
      let text := segment.text.getD ""
      let error_matches :=
        (re.findall "(?:error|exception|fatal|failed): ([^\\n]\x7b5,100\x7d)" text).filterMap
          List.head?
      let d := if error_matches ≠ [] then error_matches.take 2 else []
      match re.findall "(?:line|at) (\\d+)(?::(\\d+))?" text with
      | [] => d
      | m :: _ => d ++ ["at line " ++ (m.head?.getD "")]
    else diagnostics
  if diagnostics = [] ∧ segment.text ≠ none ∧ segment.text ≠ some "" then
    let text := segment.text.getD ""
    let snippet := (text.take 100).trim
    if snippet ≠ "" then [snippet ++ (if 100 < text.length then "..." else "")]
    else []
  else diagnostics

/-- `_extract_provider_context` (lines 222-230). -/
def extractProviderContext (segment : Segment) : List (String × String) :=
  (match segment.provider with | some v => [("provider", v)] | none => [])
  ++ (match segment.provider_name with | some v => [("provider_name", v)] | none => [])
  ++ (match segment.provider_version with | some v => [("provider_version", v)] | none => [])

/-- `FallbackClassifier.classify` (lines 42-112): pick significant segments
(or the top three by score), build one capped-confidence prediction per
segment, sort by confidence and keep the top three. -/
def classify (fc : FallbackClassifier) (re : RegexEngine) (segments : List Segment) :
    List RootCausePrediction :=
  if segments = [] then []
  else
    let significant := segments.filter (fun s =>
      match s.score with | some v => fc.min_segment_score ≤ v | none => false)
    let significant :=
      if significant = [] then
        let scored_segments := segments.map (fun s => (s, s.score.getD 0.0))
        ((sortDescBy Prod.snd scored_segments).take 3).map Prod.fst
      else significant
    let predictions := significant.map (fun segment =>
      let lh := fc.suggestLabel re segment
      let base_confidence :=
        min fc.confidence_ceiling (0.3 + (segment.score.getD 0.5) * 0.3)
      let adjusted_confidence :=
        if lh.1 ≠ "UNCLASSIFIED" then
          min fc.confidence_ceiling (base_confidence + lh.2 * 0.2)
        else base_confidence
      { label := lh.1
        confidence := adjusted_confidence
        segment_ids := [segment.idAttr]
        supporting_tokens := extractDiagnosticTokens re segment
        provider_context := extractProviderContext segment
        classifier_id := "FallbackClassifier" : RootCausePrediction })
    (sortDescBy (fun p => p.confidence) predictions).take 3

end FallbackClassifier

/-- `ContextualRule` (`rule_conditions.py`, lines 158-170).  The condition
tree, the context resolver, the confidence calculator and the token extractor
are per-rule callables; they are embedded as (pure) Lean functions, which is
what the source's side-effect-free callables are. -/
structure ContextualRule where
  name : String
  label : String
  condition : Segment → Bool
  context_resolver : List Segment → Segment → List Segment
  confidence_calculator : Segment → List Segment → ℚ
  token_extractor : Segment → List Segment → List String

/-- `ContextualRule.evaluate` (lines 172-194): one result tuple per segment
satisfying the condition. -/
def ContextualRule.evaluate (r : ContextualRule) (segments : List Segment) :
    List (Segment × List Segment × ℚ × List String) :=
  segments.filterMap (fun segment =>
    if r.condition segment then
      let context_segments := r.context_resolver segments segment
      some (segment, context_segments,
        r.confidence_calculator segment context_segments,
        r.token_extractor segment context_segments)
    else none)

/-- `EnhancedRuleBasedClassifier` configuration (`rule_conditions.py`,
lines 197-214). -/
structure RuleClassifier where
  name : String
  confidence_threshold : ℚ := 0.7
  classifier_id : String
  rules : List ContextualRule

/-- The id-backfilling preprocessing of `EnhancedRuleBasedClassifier.classify`
(lines 221-223): `if not hasattr(segment, 'id') or not segment.id:
segment.id = f"segment_\x7bi\x7d"`, an in-place mutation modelled by rebuilding
the list. -/
def backfillFrom (i : Nat) : List Segment → List Segment
  | [] => []
  | s :: ss =>
      (if s.id = none ∨ s.id = some "" then { s with id := some ("segment_" ++ toString i) }
       else s) :: backfillFrom (i + 1) ss

def backfillIds (segments : List Segment) : List Segment := backfillFrom 0 segments

/-- `_extract_provider_context` of the rule classifier (lines 262-270): same
as the fallback's but also probing `provider_config`. -/
def ruleProviderContext (segment : Segment) : List (String × String) :=
  FallbackClassifier.extractProviderContext segment
  ++ (match segment.provider_config with | some v => [("provider_config", v)] | none => [])

/-- The prediction list built by `EnhancedRuleBasedClassifier.classify`
(lines 226-256) on the already-backfilled segments, sorted descending. -/
def rulePreds (c : RuleClassifier) (segs : List Segment) : List RootCausePrediction :=
  sortDescBy (fun p => p.confidence)
    ((c.rules.map (fun r =>
      (r.evaluate segs).filterMap (fun q =>
        if c.confidence_threshold ≤ q.2.2.1 then
          some { label := r.label
                 confidence := q.2.2.1
                 segment_ids := (q.1.id.getD "") :: q.2.1.map (fun s => s.id.getD "")
                 supporting_tokens := q.2.2.2
                 provider_context := ruleProviderContext q.1
                 classifier_id := c.classifier_id : RootCausePrediction }
        else none))).flatten)

/-- `EnhancedRuleBasedClassifier.classify` (lines 216-256): backfill ids in
place, apply every rule, keep matches at or above the threshold, sort by
confidence.  Returns the mutated segment list together with the predictions.
Direct `.id` access on a context segment (which the Python code performs, and
which can only fail for resolver-invented segments) is modelled as `getD ""`. -/
def RuleClassifier.classify (c : RuleClassifier) (segments : List Segment) :
    List Segment × List RootCausePrediction :=
  let segs := backfillIds segments
  (segs, rulePreds c segs)

/-- `EnhancedClassifierRegistry.classify` (`rule_conditions.py`,
lines 476-485): concatenate every registered classifier's predictions (each
classifier mutating the shared segment list in turn) and sort descending. -/
def registryGo : List RuleClassifier → List Segment →
    List Segment × List RootCausePrediction
  | [], segs => (segs, [])
  | c :: cs, segs =>
      let r1 := c.classify segs
      let r2 := registryGo cs r1.1
      (r2.1, r1.2 ++ r2.2)

def registryClassify (cs : List RuleClassifier) (segments : List Segment) :
    List Segment × List RootCausePrediction :=
  let r := registryGo cs segments
  (r.1, sortDescBy (fun p => p.confidence) r.2)

/-- `RootCauseAnalysisEngine.__init__` (`fallback_classifier.py`,
lines 270-286). -/
structure RootCauseAnalysisEngine where
  confidence_threshold : ℚ := 0.65
  enable_fallback : Bool := true
  fallback_confidence_ceiling : ℚ := 0.6

namespace RootCauseAnalysisEngine

def coordinator (e : RootCauseAnalysisEngine) : ClassifierCoordinator :=
  { base_confidence_threshold := e.confidence_threshold }

def fallbackClassifier (e : RootCauseAnalysisEngine) : FallbackClassifier :=
  { confidence_ceiling := e.fallback_confidence_ceiling }

/-- The loop of `analyze` lines 313-320: linear scan for the best score
(`getattr(s, 'score', 0)`, strictly-greater update, starting from `-1`). -/
def bestSegment (segments : List Segment) : Option Segment :=
  (segments.foldl (fun acc s =>
    let score := s.score.getD 0
    if acc.2 < score then (some s, score) else acc)
    ((none : Option Segment), (-1 : ℚ))).1

/-- The last-resort `UNCLASSIFIED` prediction of `analyze` (lines 322-339);
nothing is appended when no best segment exists. -/
def lastResortPredictions (segments : List Segment) : List RootCausePrediction :=
  match bestSegment segments with
  | some best =>
      [{ label := "UNCLASSIFIED", confidence := 0.3,
         segment_ids := [best.idAttr], supporting_tokens := [],
         provider_context := [], classifier_id := "LastResortFallback" }]
  | none => []

/-- The raw prediction list `analyze` builds before coordination
(lines 303-339), together with the (possibly mutated) segment list:
registry output, else fallback classifier, else last resort. -/
def rawPredictions (e : RootCauseAnalysisEngine) (re : RegexEngine)
    (cs : List RuleClassifier) (segments : List Segment) :
    List Segment × List RootCausePrediction :=
  let r := registryClassify cs segments
  let raw :=
    if e.enable_fallback ∧ r.2 = [] then
      r.2 ++ (e.fallbackClassifier).classify re r.1
    else r.2
  let raw := if raw = [] then lastResortPredictions r.1 else raw
  (r.1, raw)

/-- `enrich_prediction_metadata` (`classifier_coordinator.py`, lines
221-285) returns a fresh prediction copying `label`, `confidence`,
`segment_ids`, `supporting_tokens`, `provider_context` and `classifier_id`
verbatim and only extends the (unmodelled) free-form `metadata` dict. -/
def enrichPredictionMetadata (_segments : List Segment) (p : RootCausePrediction) :
    RootCausePrediction :=
  { label := p.label, confidence := p.confidence, segment_ids := p.segment_ids,
    supporting_tokens := p.supporting_tokens, provider_context := p.provider_context,
    classifier_id := p.classifier_id }

/-- `RootCauseAnalysisEngine.analyze` (`fallback_classifier.py`,
lines 292-350): raw predictions, coordination, metadata enrichment.  The
registry contents are the explicit `cs` argument; `re` is the abstract regex
engine.  Returns the mutated segment list and the predictions. -/
def analyze (e : RootCauseAnalysisEngine) (re : RegexEngine)
    (cs : List RuleClassifier) (segments : List Segment) :
    List Segment × List RootCausePrediction :=
  let r := rawPredictions e re cs segments
  (r.1, ((e.coordinator).coordinate r.2).map (enrichPredictionMetadata r.1))

end RootCauseAnalysisEngine

/-- Python `round(x, 2)` on rationals.  The tie-breaking mode of float
rounding (half-to-even) only differs from `round` at exact half-cent values
and is immaterial here: the same rounding is used on both the source side and
the specification side. -/
def round2 (x : ℚ) : ℚ := ((round (x * 100) : ℤ) : ℚ) / 100

/-- Python `round(x, 2)` on reals (same remark as `round2`). -/
noncomputable def round2R (x : ℝ) : ℝ := ((round (x * 100) : ℤ) : ℝ) / 100

namespace SegmentScorer

/-- `SegmentScorer.compute_segment_score` (`segment_classifier.py`,
lines 80-84), over the list of the tokens' `type.severity.level` values. -/
def compute_segment_score (severities : List ℕ) : ℚ :=
  let severity_score : ℚ := (severities.map (fun n => (n : ℚ))).sum
  let length_penalty : ℕ := max severities.length 1
  round2 (severity_score / (length_penalty : ℚ))

/-- `SegmentScorer.calculate_entropy` (lines 71-78): iterate over the
character counts (`Counter(text).values()`, i.e. one term per distinct
character) of the segment's raw text, `0.0` for empty text. -/
noncomputable def calculate_entropy (text : List Char) : ℝ :=
  if text = [] then 0
  else
    let total_chars : ℝ := (text.length : ℝ)
    let summands := (text.dedup).map (fun ch =>
      ((text.count ch : ℝ) / total_chars) *
        Real.logb 2 ((text.count ch : ℝ) / total_chars))
    Neg.neg summands.sum

/-- `SegmentScorer.calculate_confidence_level` (lines 86-90), taking the
already-rounded `segment_score` and the segment's `entropy`. -/
noncomputable def calculate_confidence_level (segment_score : ℚ) (entropy : ℝ) : ℝ :=
  let entropy_penalty : ℝ := max (1 - entropy / 10) 0
  round2R (min 1 ((segment_score : ℝ) / 100 * entropy_penalty))

/-- Specification-side formula: "(sum of token severities) / max(token
count, 1), rounded to 2 decimals". -/
def specSegmentScore (severities : List ℕ) : ℚ :=
  round2 (((severities.map (fun n => (n : ℚ))).sum) / ((max severities.length 1 : ℕ) : ℚ))

/-- Specification-side formula: the base-2 Shannon entropy of the raw
character distribution (one summand per distinct character). -/
noncomputable def specShannonEntropy (text : List Char) : ℝ :=
  -∑ ch ∈ text.toFinset,
      ((text.count ch : ℝ) / (text.length : ℝ)) *
        Real.logb 2 ((text.count ch : ℝ) / (text.length : ℝ))

/-- Specification-side formula:
`min(1.0, (segment_score/100) * max(1 - entropy/10, 0))`, rounded. -/
noncomputable def specConfidenceLevel (segment_score : ℚ) (entropy : ℝ) : ℝ :=
  round2R (min 1 (((segment_score : ℝ) / 100) * max (1 - entropy / 10) 0))

end SegmentScorer

/-- A reference dict attached to a prediction (`root_cause_engine.py`
consumes `ref.get("job_id"/"section"/"line_range"/"url")`). -/
structure ReportRef where
  job_id : Option String
  sectionName : Option String
  line_range : Option (List Int)
  url : Option String
  deriving DecidableEq

/-- A prediction as consumed by
`RootCauseAnalysisEngine.generate_summary_report`
(`core/root_cause_prediction_v2.py` shape: `label`, `confidence`,
`supporting_tokens`, `references`; the other fields are not read). -/
structure ReportPrediction where
  label : String
  confidence : ℚ
  supporting_tokens : List String
  references : List ReportRef
  deriving DecidableEq

structure TraceUrl where
  label : String
  url : Option String
  job_id : Option String
  sectionName : Option String
  line_range : Option (List Int)
  deriving DecidableEq

structure ReportIssue where
  label : String
  confidence : ℚ
  references : List ReportRef
  deriving DecidableEq

structure PrimaryIssue where
  label : String
  confidence : ℚ
  description : String
  evidence : List String
  deriving DecidableEq

/-- The dict returned by `generate_summary_report`; in the empty case the
Python dict carries only `status` and `all_issues`, modelled by `none`/`[]`
in the remaining fields. -/
structure SummaryReport where
  status : String
  primary_issue : Option PrimaryIssue
  affected_jobs : List String
  affected_sections : List String
  all_issues : List ReportIssue
  trace_urls : List TraceUrl
  deriving DecidableEq

/-- Ascending insertion for Python `sorted` over strings. -/
def insertAscStr (s : String) : List String → List String
  | [] => [s]
  | t :: ts => if s ≤ t then s :: t :: ts else t :: insertAscStr s ts

/-- Python `sorted(set(l))`. -/
def pySortedStrSet (l : List String) : List String :=
  (l.dedup).foldl (fun acc s => insertAscStr s acc) []

/-- `RootCauseAnalysisEngine.generate_summary_report`
(`root_cause_engine.py`, lines 58-113).  `primary` is Python
`max(predictions, key=confidence)`; `description` is
`getattr(primary, "description", "")`, and the prediction dataclass has no
`description` field, so it is always `""`. -/
def generate_summary_report (predictions : List ReportPrediction) : SummaryReport :=
  match predictions with
  | [] =>
      { status := "no_issues", primary_issue := none, affected_jobs := [],
        affected_sections := [], all_issues := [], trace_urls := [] }
  | p :: ps =>
      let preds := p :: ps
      let primary := pyMaxBy (fun q => q.confidence) p ps
      { status := "issues_detected"
        primary_issue := some
          { label := primary.label, confidence := primary.confidence,
            description := "", evidence := primary.supporting_tokens }
        affected_jobs := pySortedStrSet
          ((preds.map (fun pr => pr.references.map (fun r => r.job_id.getD ""))).flatten)
        affected_sections := pySortedStrSet
          ((preds.map (fun pr => pr.references.map (fun r => r.sectionName.getD ""))).flatten)
        all_issues := preds.map (fun pr =>
          { label := pr.label, confidence := pr.confidence,
            references := pr.references : ReportIssue })
        trace_urls := (preds.map (fun pr => pr.references.map (fun r =>
          { label := pr.label, url := r.url, job_id := r.job_id,
            sectionName := r.sectionName, line_range := r.line_range : TraceUrl }))).flatten }

/-- The `TokenType` enumeration actually defined in
`tokenization/token_types.py` (lines 28-43): its fifteen members.  It has no
`TEST_ERROR`, `CI_ERROR` or `CI_WARNING` member. -/
inductive TokenType
  | SECTION_START | SECTION_END | COMMAND | STACK_TRACE | STEP | WARNING | ERROR
  | INFO | DEBUG | ASSERTION_FAIL | TEST_FAILURE | EXIT_CODE | IGNORE | DEFAULT
  | EXIT_CODE_NON_ZERO
  deriving DecidableEq

/-- `type.severity.level` of each member (`token_types.py`, lines 29-43). -/
def TokenType.severityLevel : TokenType → ℕ
  | .SECTION_START => 0 | .SECTION_END => 0 | .COMMAND => 0 | .STACK_TRACE => 190
  | .STEP => 0 | .WARNING => 50 | .ERROR => 100 | .INFO => 30 | .DEBUG => 20
  | .ASSERTION_FAIL => 150 | .TEST_FAILURE => 160 | .EXIT_CODE => 200
  | .IGNORE => 0 | .DEFAULT => 0 | .EXIT_CODE_NON_ZERO => 201

/-- Python attribute lookup `TokenType.<name>`: `some` for the fifteen
defined members, `none` (an `AttributeError`) otherwise. -/
def tokenTypeAttr : String → Option TokenType
  | "SECTION_START" => some .SECTION_START
  | "SECTION_END" => some .SECTION_END
  | "COMMAND" => some .COMMAND
  | "STACK_TRACE" => some .STACK_TRACE
  | "STEP" => some .STEP
  | "WARNING" => some .WARNING
  | "ERROR" => some .ERROR
  | "INFO" => some .INFO
  | "DEBUG" => some .DEBUG
  | "ASSERTION_FAIL" => some .ASSERTION_FAIL
  | "TEST_FAILURE" => some .TEST_FAILURE
  | "EXIT_CODE" => some .EXIT_CODE
  | "IGNORE" => some .IGNORE
  | "DEFAULT" => some .DEFAULT
  | "EXIT_CODE_NON_ZERO" => some .EXIT_CODE_NON_ZERO
  | _ => none

/-- The attribute names referenced, in evaluation order, by the
`self.severity_order` dict literal of `TokenConflictResolver.__init__`
(`resolution.py`, lines 10-21), with their rank values. -/
def severityOrderNames : List (String × ℕ) :=
  [("STACK_TRACE", 1), ("TEST_ERROR", 2), ("TEST_FAILURE", 3), ("ERROR", 4),
   ("CI_ERROR", 5), ("ASSERTION_FAIL", 6), ("EXIT_CODE_NON_ZERO", 7),
   ("WARNING", 8), ("INFO", 9), ("DEFAULT", 99)]

/-- Evaluation of the `severity_order` dict literal: each key is a
`TokenType.<name>` attribute lookup, evaluated left to right; the first
missing member raises `AttributeError`. -/
def severityOrderTable : Except String (List (TokenType × ℕ)) :=
  severityOrderNames.mapM (fun nr =>
    match tokenTypeAttr nr.1 with
    | some t => Except.ok (t, nr.2)
    | none => Except.error
        ("AttributeError: type object TokenType has no attribute " ++ nr.1))

/-- `TokenConflictResolver` state after a successful `__init__`. -/
structure TokenConflictResolver where
  provider : Option String
  severity_order : List (TokenType × ℕ)

/-- `TokenConflictResolver.__init__` (`resolution.py`, lines 8-21): store the
provider, then evaluate the `severity_order` dict literal. -/
def TokenConflictResolver.construct (provider : Option String) :
    Except String TokenConflictResolver :=
  match severityOrderTable with
  | .ok table => .ok ⟨provider, table⟩
  | .error e => .error e

/-- A `GroupedSegment` for the context analyzer: an identifying tag plus the
`context` dict.  Context values are the placeholder summaries (`"\x7b\x7d"` for the
empty dict `_extract_context_summary` returns). -/
structure GroupedSegment where
  tag : Nat
  context : List (String × String)
  deriving DecidableEq

/-- Python dict assignment `d[k] = v`: update in place or append. -/
def dictSet (d : List (String × String)) (k v : String) : List (String × String) :=
  if (d.lookup k).isSome then d.map (fun kv => if kv.1 = k then (k, v) else kv)
  else d ++ [(k, v)]

/-- `ContextAnalyzer.__init__` (`context_analyzer.py`, lines 10-16) with the
default empty `providers_config` (so the provider-specific branch, which is a
`pass` placeholder in the source, never fires). -/
structure ContextAnalyzer where
  window_size : Nat := 5

namespace ContextAnalyzer

/-- `_analyze_buffered_context` (lines 34-49): enrich the segment at the
buffer midpoint in place and return it.  Returns the enriched target and the
buffer with the mutation applied.  Called only on non-empty buffers (the
`getD` default is never used). -/
def analyzeBuffered (buffer : List GroupedSegment) :
    GroupedSegment × List GroupedSegment :=
  let mid := buffer.length / 2
  let target := (buffer.get? mid).getD ⟨0, []⟩
  let target :=
    if buffer.take mid ≠ [] then
      { target with context := dictSet target.context "preceding_context" "\x7b\x7d" }
    else target
  let target :=
    if buffer.drop (mid + 1) ≠ [] then
      { target with context := dictSet target.context "following_context" "\x7b\x7d" }
    else target
  (target, buffer.set mid target)

theorem analyzeBuffered_snd_length (buffer : List GroupedSegment) :
    (analyzeBuffered buffer).2.length = buffer.length := by
  simp [analyzeBuffered]

/-- Structural-recursion core of the flush loop: the fuel is the buffer
length, which decreases by exactly one per iteration
(`analyzeBuffered_snd_length`), so the `0, _ :: _` case is never reached. -/
def flushFuel : Nat → List GroupedSegment → List GroupedSegment
  | _, [] => []
  | 0, _ :: _ => []
  | fuel + 1, b :: bs =>
      let r := analyzeBuffered (b :: bs)
      r.1 :: flushFuel fuel (r.2.drop 1)

/-- The `while segment_buffer:` flush loop of `analyze` (lines 29-32). -/
def flush (buffer : List GroupedSegment) : List GroupedSegment :=
  flushFuel buffer.length buffer

/-- The `for segment in segments:` loop of `analyze` (lines 22-27): append to
the buffer; once the buffer exceeds `window_size`, yield the enriched
midpoint segment and pop the front. -/
def loop (ca : ContextAnalyzer) : List GroupedSegment → List GroupedSegment →
    List GroupedSegment
  | buffer, [] => flush buffer
  | buffer, s :: rest =>
      let buffer := buffer ++ [s]
      if ca.window_size < buffer.length then
        let r := analyzeBuffered buffer
        r.1 :: loop ca (r.2.drop 1) rest
      else loop ca buffer rest

/-- `ContextAnalyzer.analyze` (lines 18-32): the generator, materialized. -/
def analyze (ca : ContextAnalyzer) (segments : List GroupedSegment) :
    List GroupedSegment :=
  loop ca [] segments

end ContextAnalyzer

namespace ConfidenceScorer

/-- The regex metacharacters of `_calculate_pattern_specificity`
(`confidence_metrics.py`, line 84): the characters of `r'^$.*+?()[]\x7b\x7d|\\'`. -/
def regexSpecialChars : List Char :=
  ['^', '$', '.', '*', '+', '?', '(', ')', '[', ']', '\x7b', '\x7d', '|', '\\']

/-- Non-overlapping occurrence count, scanning left to right, for a
non-empty pattern `p0 :: ps` (Python `str.count`). -/
def countOccurAux (p0 : Char) (ps : List Char) : List Char → Nat
  | [] => 0
  | c :: t =>
      if (p0 :: ps).isPrefixOf (c :: t) then
        1 + countOccurAux p0 ps ((c :: t).drop (ps.length + 1))
      else countOccurAux p0 ps t
termination_by l => l.length
decreasing_by
  · simp only [List.length_drop, List.length_cons]
    omega
  · simp

/-- Python `s.count(pat)` for the non-empty literal patterns used by
`_calculate_pattern_specificity`. -/
def countSubstr (s pat : String) : Nat :=
  match pat.data with
  | [] => 0
  | p0 :: ps => countOccurAux p0 ps s.data

/-- The pure computation of `_calculate_pattern_specificity`
(`confidence_metrics.py`, lines 83-90). -/
def calculatePatternSpecificity (pattern : String) : ℚ :=
  let length_factor : ℚ := min 1.0 ((pattern.length : ℚ) / 100.0)
  let char_class_factor : ℚ :=
    min 1.0 (((pattern.data.filter (fun c => c ∈ regexSpecialChars)).length : ℚ) / 10.0)
  let anchors : ℕ := countSubstr pattern "\\b" + countSubstr pattern "^" + countSubstr pattern "$"
  let anchor_factor : ℚ := min 1.0 ((anchors : ℚ) / 3.0)
  let captures : ℤ := (countSubstr pattern "(" : ℤ) - (countSubstr pattern "(?:" : ℤ)
  let capture_factor : ℚ := min 1.0 ((captures : ℚ) / 5.0)
  0.4 + 0.6 * (0.3 * length_factor + 0.3 * char_class_factor +
    0.2 * anchor_factor + 0.2 * capture_factor)

/-- `_calculate_pattern_specificity` with its memoization dict
(lines 80-92): return the cached value if present, otherwise compute and
cache. -/
def cachedPatternSpecificity (cache : List (String × ℚ)) (pattern : String) :
    ℚ × List (String × ℚ) :=
  match cache.lookup pattern with
  | some v => (v, cache)
  | none =>
      let specificity := calculatePatternSpecificity pattern
      (specificity, (pattern, specificity) :: cache)

/-- A sequence of specificity calls threading the cache. -/
def runSpecCalls (cache : List (String × ℚ)) : List String → List (String × ℚ)
  | [] => cache
  | p :: ps => runSpecCalls (cachedPatternSpecificity cache p).2 ps

end ConfidenceScorer

/-! Helper lemmas about Jaccard similarity on empty id sets. -/

theorem interCard_nil_left (b : List String) : interCard [] b = 0 := rfl

theorem interCard_nil_right (a : List String) : interCard a [] = 0 := by
  simp [interCard]

theorem jaccardQ_nil_left (b : List String) : jaccardQ [] b = 0 := by
  simp [jaccardQ, interCard_nil_left]

theorem jaccardQ_nil_right (a : List String) : jaccardQ a [] = 0 := by
  simp [jaccardQ, interCard_nil_right]

namespace ClassifierCoordinator

/-- Core of the corrected coordinator invariant: two groups that both stayed
singletons were separated by a Jaccard test against exactly each other's id
set, so their seeds' pairwise similarity is below the (positive) threshold. -/
theorem singleton_groups_jaccard (thr : ℚ) (hthr : 0 < thr) :
    ∀ (n : ℕ) (l : List RootCausePrediction), l.length ≤ n →
      ∀ (i j : ℕ) (g h : RootCausePrediction), i < j →
        (groupOverlappingPredictions thr l)[i]? = some [g] →
        (groupOverlappingPredictions thr l)[j]? = some [h] →
        jaccardQ (setIds g.segment_ids) (setIds h.segment_ids) < thr := by
  intro n
  induction n with
  | zero =>
      intro l hl i j g h _ hgi _
      rw [List.length_eq_zero.mp (Nat.le_zero.mp hl), groupOverlapping_nil] at hgi
      simp at hgi
  | succ n ih =>
      intro l hl i j g h hij hgi hgj
      match l with
      | [] =>
          rw [groupOverlapping_nil] at hgi
          simp at hgi
      | q :: rest =>
          rw [groupOverlapping_cons] at hgi hgj
          have hrest : (absorb thr (setIds q.segment_ids) rest).2.length ≤ n := by
            have h1 := absorb_snd_length thr (setIds q.segment_ids) rest
            have h2 : rest.length + 1 ≤ n + 1 := by simpa using hl
            omega
          match i with
          | 0 =>
              simp only [List.getElem?_cons_zero, Option.some.injEq] at hgi
              have hq : q = g := (List.cons.injEq _ _ _ _).mp hgi |>.1
              have habs : (absorb thr (setIds q.segment_ids) rest).1 = [] :=
                (List.cons.injEq _ _ _ _).mp hgi |>.2
              subst hq
              match j, hij with
              | j + 1, _ =>
                  simp only [List.getElem?_cons_succ] at hgj
                  have hgrp : [h] ∈ groupOverlappingPredictions thr
                      (absorb thr (setIds q.segment_ids) rest).2 := by
                    exact List.getElem?_mem hgj
                  have hmem : h ∈ (absorb thr (setIds q.segment_ids) rest).2 :=
                    mem_groupOverlapping thr _ _ le_rfl _ hgrp h (List.mem_cons_self _ _)
                  rcases absorb_none_spec thr (setIds q.segment_ids) rest habs with ⟨h2, hall⟩
                  have hnot := hall h (h2 ▸ hmem)
                  by_cases hsh : setIds h.segment_ids = []
                  · rw [hsh, jaccardQ_nil_right]; exact hthr
                  · by_cases hsg : setIds q.segment_ids = []
                    · rw [hsg, jaccardQ_nil_left]; exact hthr
                    · push_neg at hnot
                      exact hnot hsh hsg
          | i + 1 =>
              match j, hij with
              | j + 1, _ =>
                  simp only [List.getElem?_cons_succ] at hgi hgj
                  exact ih _ hrest i j g h (by omega) hgi hgj

/-- A prediction in a singleton overlap group survives `coordinate`
unchanged. -/
theorem mem_coordinate_of_singleton_group (c : ClassifierCoordinator)
    (preds : List RootCausePrediction) (i : ℕ) (g : RootCausePrediction)
    (hgi : (groupOverlappingPredictions c.segment_overlap_threshold
      (preds.filter (fun p => c.base_confidence_threshold ≤ p.confidence)))[i]?
        = some [g]) :
    g ∈ coordinate c preds := by
  rw [coordinate_eq, mem_sortDescBy]
  simp only [coordResolved]
  exact List.mem_filterMap.mpr ⟨[g], List.getElem?_mem hgi, rfl⟩

end ClassifierCoordinator

/-! Concrete data for the coordinator claims. -/

def c2P0 : RootCausePrediction :=
  { label := "X", confidence := 0.7, segment_ids := ["a", "b", "c"],
    supporting_tokens := [], provider_context := [], classifier_id := "c" }

def c2P1 : RootCausePrediction :=
  { label := "X", confidence := 0.9, segment_ids := ["a", "b"],
    supporting_tokens := [], provider_context := [], classifier_id := "c" }

def c2P2 : RootCausePrediction :=
  { label := "X", confidence := 0.65, segment_ids := ["a", "b", "d", "e"],
    supporting_tokens := [], provider_context := [], classifier_id := "c" }

def c2Q0 : RootCausePrediction :=
  { label := "X", confidence := 0.7, segment_ids := ["a"],
    supporting_tokens := [], provider_context := [], classifier_id := "c" }

def c2Q1 : RootCausePrediction :=
  { label := "X", confidence := 0.8, segment_ids := ["b"],
    supporting_tokens := [], provider_context := [], classifier_id := "c" }

open ClassifierCoordinator in
/-- C2, counterexample: with the default coordinator (threshold 0.6, overlap
threshold 0.5), the three predictions `c2P0`, `c2P1`, `c2P2` produce an
output containing the two distinct predictions `c2P1` and `c2P2` whose
segment-id sets have Jaccard similarity `1/2 ≥ segment_overlap_threshold`:
`c2P2` escaped `c2P1`'s group only because it was compared against the
group's accumulated union `{a,b,c}` (similarity `2/5`), so the claimed
pairwise invariant fails. -/
theorem C2_counterexample :
    coordinate {} [c2P0, c2P1, c2P2] = [c2P1, c2P2]
      ∧ c2P1 ≠ c2P2
      ∧ ({} : ClassifierCoordinator).segment_overlap_threshold
          ≤ jaccardQ (setIds c2P1.segment_ids) (setIds c2P2.segment_ids) := by
  have hd1 : setIds ["a", "b", "c"] = ["a", "b", "c"] := List.dedup_eq_self.mpr (by decide)
  have hd2 : setIds ["a", "b"] = ["a", "b"] := List.dedup_eq_self.mpr (by decide)
  have hd3 : setIds ["a", "b", "d", "e"] = ["a", "b", "d", "e"] :=
    List.dedup_eq_self.mpr (by decide)
  refine ⟨?_, ?_, ?_⟩
  · simp only [coordinate, c2P0, c2P1, c2P2]
    norm_num +decide [groupOverlapping_cons, groupOverlapping_nil, absorb, hd1, hd2, hd3,
      jaccardQ, interCard, unionList]
    simp +decide [resolveConflict, pyMaxBy, scoreFn, calculateWeightedScore, List.lookup,
      sortDescBy, sortDescAux, insertDescBy]
    norm_num
  · intro h
    have hc : c2P1.confidence = c2P2.confidence := by rw [h]
    simp only [c2P1, c2P2] at hc
    norm_num at hc
  · simp only [c2P1, c2P2, hd2, hd3]
    norm_num +decide [jaccardQ, interCard, unionList]

open ClassifierCoordinator in
/-- C2, amended: the coordinator groups by Jaccard similarity against the
group's accumulated id-set union, so the pairwise bound holds only between
output predictions whose conflict groups stayed singletons: for a positive
overlap threshold, any two singleton-group predictions in the output of
`coordinate` (in group order) have segment-id Jaccard similarity strictly
below `segment_overlap_threshold`; both survive into the output. -/
theorem C2_amended (c : ClassifierCoordinator) (preds : List RootCausePrediction)
    (hthr : 0 < c.segment_overlap_threshold) (i j : ℕ)
    (g h : RootCausePrediction) (hij : i < j)
    (hgi : (groupOverlappingPredictions c.segment_overlap_threshold
      (preds.filter (fun p => c.base_confidence_threshold ≤ p.confidence)))[i]?
        = some [g])
    (hgj : (groupOverlappingPredictions c.segment_overlap_threshold
      (preds.filter (fun p => c.base_confidence_threshold ≤ p.confidence)))[j]?
        = some [h]) :
    jaccardQ (setIds g.segment_ids) (setIds h.segment_ids)
        < c.segment_overlap_threshold
      ∧ g ∈ coordinate c preds ∧ h ∈ coordinate c preds :=
  ⟨singleton_groups_jaccard c.segment_overlap_threshold hthr
      (preds.filter (fun p => c.base_confidence_threshold ≤ p.confidence)).length
      (preds.filter (fun p => c.base_confidence_threshold ≤ p.confidence))
      le_rfl i j g h hij hgi hgj,
    mem_coordinate_of_singleton_group c preds i g hgi,
    mem_coordinate_of_singleton_group c preds j h hgj⟩

/-- C2, witness: the amended theorem applied to two concrete predictions
with disjoint singleton segment-id sets under the default coordinator. -/
theorem C2_witness :
    jaccardQ (setIds c2Q0.segment_ids) (setIds c2Q1.segment_ids)
        < ({} : ClassifierCoordinator).segment_overlap_threshold
      ∧ c2Q0 ∈ ClassifierCoordinator.coordinate {} [c2Q0, c2Q1]
      ∧ c2Q1 ∈ ClassifierCoordinator.coordinate {} [c2Q0, c2Q1] := by
  have hda : setIds ["a"] = ["a"] := List.dedup_eq_self.mpr (by decide)
  have hdb : setIds ["b"] = ["b"] := List.dedup_eq_self.mpr (by decide)
  have hg : ClassifierCoordinator.groupOverlappingPredictions
      (({} : ClassifierCoordinator).segment_overlap_threshold)
      (([c2Q0, c2Q1]).filter
        (fun p => ({} : ClassifierCoordinator).base_confidence_threshold ≤ p.confidence))
      = [[c2Q0], [c2Q1]] := by
    simp only [c2Q0, c2Q1]
    norm_num +decide [ClassifierCoordinator.groupOverlapping_cons,
      ClassifierCoordinator.groupOverlapping_nil, ClassifierCoordinator.absorb,
      hda, hdb, jaccardQ, interCard, unionList]
  exact C2_amended {} [c2Q0, c2Q1] (by norm_num) 0 1 c2Q0 c2Q1 (by norm_num)
    (by rw [hg]; rfl) (by rw [hg]; rfl)

/-! Length preservation through the registry's in-place id backfilling. -/

theorem backfillFrom_length (i : Nat) (l : List Segment) :
    (backfillFrom i l).length = l.length := by
  induction l generalizing i with
  | nil => rfl
  | cons s ss ih => simp [backfillFrom, ih]

theorem registryGo_fst_length (cs : List RuleClassifier) (s : List Segment) :
    (registryGo cs s).1.length = s.length := by
  induction cs generalizing s with
  | nil => rfl
  | cons c cs ih =>
      simp [registryGo, RuleClassifier.classify, ih, backfillIds, backfillFrom_length]

/-- The fallback classifier always produces at least one prediction for a
non-empty segment list: either some segments pass the score filter, or the
top three by score (at least one) are used. -/
theorem fallback_classify_ne_nil (fc : FallbackClassifier) (re : RegexEngine)
    (segments : List Segment) (hs : segments ≠ []) :
    FallbackClassifier.classify fc re segments ≠ [] := by
  have hlen : 0 < segments.length := List.length_pos.mpr hs
  have hne : ∀ (l : List RootCausePrediction), 0 < l.length → l ≠ [] := by
    intro l hl h
    rw [h] at hl
    simp at hl
  apply hne
  simp only [FallbackClassifier.classify, if_neg hs]
  by_cases hsig : segments.filter (fun s =>
      match s.score with | some v => fc.min_segment_score ≤ v | none => false) = []
  · simp only [hsig, if_pos]
    simp [List.length_take, length_sortDescBy, List.length_map]
    omega
  · simp only [if_neg hsig]
    simp [List.length_take, length_sortDescBy, List.length_map]
    have : 0 < (segments.filter (fun s =>
        match s.score with | some v => fc.min_segment_score ≤ v | none => false)).length :=
      List.length_pos.mpr hsig
    omega

open RootCauseAnalysisEngine in
/-- C1, amended: when no registered classifier produces a prediction, the
fallback classifier is invoked and — for a non-empty segment list with
fallback enabled — always yields at least one prediction, so the raw
prediction list the engine hands to the coordinator is never empty.  (The
final `analyze()` result can nevertheless be empty, because the coordinator
drops every prediction below its confidence threshold, default `0.65`, which
exceeds the fallback confidence ceiling `0.6`; see `C1_counterexample`.) -/
theorem C1_amended (e : RootCauseAnalysisEngine) (re : RegexEngine)
    (cs : List RuleClassifier) (segments : List Segment)
    (hfb : e.enable_fallback = true) (hs : segments ≠ []) :
    (rawPredictions e re cs segments).2 ≠ [] := by
  have hseg1 : (registryClassify cs segments).1 ≠ [] := by
    intro h
    have hl : (registryClassify cs segments).1.length = segments.length :=
      registryGo_fst_length cs segments
    rw [h] at hl
    exact hs (List.length_eq_zero.mp hl.symm)
  by_cases hr : (registryClassify cs segments).2 = []
  · have hf := fallback_classify_ne_nil (e.fallbackClassifier) re
      (registryClassify cs segments).1 hseg1
    simp only [rawPredictions, hfb, hr]
    simp [hf]
  · simp only [rawPredictions, hfb, hr]
    simp [hr]

/-- The abstract regex engine that never matches (sufficient for segments
without text). -/
def emptyRegexEngine : RegexEngine := ⟨fun _ _ => none, fun _ _ => []⟩

/-- A segment carrying none of the optional attributes (`id`, `score`,
`text`, `tokens`, providers), with object identity 0. -/
def plainSegment : Segment :=
  ⟨none, 0, none, none, none, none, none, none, none⟩

open FallbackClassifier in
/-- Evaluation of the fallback classifier on `plainSegment`: one
`UNCLASSIFIED` prediction at confidence `0.3 + 0.5 * 0.3 = 0.45`. -/
theorem fallback_classify_plainSegment :
    FallbackClassifier.classify {} emptyRegexEngine [plainSegment]
      = [{ label := "UNCLASSIFIED", confidence := 0.45, segment_ids := ["segment_0"],
           supporting_tokens := [], provider_context := [],
           classifier_id := "FallbackClassifier" }] := by
  simp [FallbackClassifier.classify, suggestLabel, extractDiagnosticTokens,
    extractProviderContext, heuristic_patterns, plainSegment, emptyRegexEngine,
    sortDescBy, sortDescAux, insertDescBy, Segment.idAttr]
  norm_num
  rfl

open RootCauseAnalysisEngine in
/-- C1, counterexample: the default engine (confidence threshold `0.65`,
fallback enabled) with no registered classifiers, applied to the single
segment `plainSegment`, produces the raw fallback prediction at confidence
`0.45` but returns the empty prediction list — the coordinator's threshold
filter drops it — refuting "the engine never returns zero predictions when
given at least one segment". -/
theorem C1_counterexample :
    (RootCauseAnalysisEngine.analyze {} emptyRegexEngine [] [plainSegment]).2 = []
      ∧ [plainSegment] ≠ [] := by
  constructor
  · have h := fallback_classify_plainSegment
    simp [RootCauseAnalysisEngine.analyze, rawPredictions, registryClassify, registryGo,
      RootCauseAnalysisEngine.fallbackClassifier, RootCauseAnalysisEngine.coordinator,
      sortDescBy, sortDescAux, ClassifierCoordinator.coordinate, h]
    norm_num
  · simp

/-- C1, witness: the amended theorem at the concrete input of the
counterexample — the raw pre-coordination prediction list is non-empty. -/
theorem C1_witness :
    (RootCauseAnalysisEngine.rawPredictions {} emptyRegexEngine [] [plainSegment]).2 ≠ [] :=
  C1_amended {} emptyRegexEngine [] [plainSegment] rfl (by simp)

theorem enrich_id (s : List Segment) (p : RootCausePrediction) :
    RootCauseAnalysisEngine.enrichPredictionMetadata s p = p := rfl

open RootCauseAnalysisEngine ClassifierCoordinator in
/-- C3: the prediction list returned by `analyze()` is sorted by confidence
in non-increasing order, and tied predictions keep the stable order of their
first appearance — for every confidence value `q`, the key-`q` predictions
appear in the same order as in the coordinator's pre-sort resolved list
(which lists conflict-group survivors in first-seen group order). -/
theorem C3_sorted_stable (e : RootCauseAnalysisEngine) (re : RegexEngine)
    (cs : List RuleClassifier) (segments : List Segment) :
    ((RootCauseAnalysisEngine.analyze e re cs segments).2).Pairwise
        (fun a b => b.confidence ≤ a.confidence)
      ∧ ∀ q : ℚ,
        ((RootCauseAnalysisEngine.analyze e re cs segments).2).filter
            (fun p => p.confidence == q)
          = (coordResolved e.coordinator (rawPredictions e re cs segments).2).filter
              (fun p => p.confidence == q) := by
  have hout : (RootCauseAnalysisEngine.analyze e re cs segments).2
      = sortDescBy (fun p => p.confidence)
          (coordResolved e.coordinator (rawPredictions e re cs segments).2) := by
    have hmap : ∀ (l : List RootCausePrediction) (s : List Segment),
        l.map (RootCauseAnalysisEngine.enrichPredictionMetadata s) = l := by
      intro l s
      induction l with
      | nil => rfl
      | cons p ps ih => simp [ih, enrich_id]
    simp only [RootCauseAnalysisEngine.analyze, hmap]
    rw [coordinate_eq]
  rw [hout]
  exact ⟨pairwise_sortDescBy _ _, fun q => filter_sortDescBy _ q _⟩

open SegmentScorer in
/-- C6: the segment scorer computes exactly the specified formulas —
`segment_score` is the severity sum over `max(token count, 1)` rounded to two
decimals, `confidence_level` is
`min(1.0, (segment_score/100) * max(1 - entropy/10, 0))` rounded to two
decimals, and `entropy` is the base-2 Shannon entropy of the raw character
distribution (`0` for empty text, which the spec-side `specShannonEntropy`
yields as the empty sum). -/
theorem C6_scorer_formulas :
    (∀ severities : List ℕ, compute_segment_score severities = specSegmentScore severities)
      ∧ (∀ (s : ℚ) (e : ℝ), calculate_confidence_level s e = specConfidenceLevel s e)
      ∧ (∀ text : List Char, calculate_entropy text = specShannonEntropy text) := by
  refine ⟨fun severities => rfl, fun s e => rfl, fun text => ?_⟩
  by_cases h : text = []
  · subst h
    simp [calculate_entropy, specShannonEntropy]
  · simp only [calculate_entropy, if_neg h, specShannonEntropy]
    have hfin : (text.dedup).toFinset = text.toFinset :=
      List.toFinset_eq_iff_perm_dedup.mpr (by rw [List.dedup_idem])
    rw [← hfin, List.sum_toFinset _ (List.nodup_dedup text)]

theorem flatten_map_nil {α β : Type} (l : List α) (f : α → List β)
    (h : ∀ a, f a = []) : (l.map f).flatten = [] := by
  induction l with
  | nil => rfl
  | cons x xs ih => simp [h, ih]

theorem rulePreds_nil (c : RuleClassifier) : rulePreds c [] = [] := by
  unfold rulePreds
  rw [flatten_map_nil _ _ (fun r => by simp [ContextualRule.evaluate])]
  rfl

theorem registryGo_nil (cs : List RuleClassifier) : registryGo cs [] = ([], []) := by
  induction cs with
  | nil => rfl
  | cons c cs ih =>
      simp [registryGo, RuleClassifier.classify, backfillIds, backfillFrom,
        rulePreds_nil, ih]

open RootCauseAnalysisEngine in
/-- C8: `analyze()` on an empty segment list returns the empty list (no
classifier, fallback or last-resort prediction is produced);
`generate_summary_report` returns status `no_issues` exactly when the
prediction list is empty, and on a non-empty list its `primary_issue` copies
the label and confidence of `max(predictions, key=confidence)`, a member of
the list of maximal confidence. -/
theorem C8_empty_and_report :
    (∀ (e : RootCauseAnalysisEngine) (re : RegexEngine) (cs : List RuleClassifier),
        (RootCauseAnalysisEngine.analyze e re cs []).2 = [])
      ∧ (∀ predictions : List ReportPrediction,
          (generate_summary_report predictions).status = "no_issues" ↔ predictions = [])
      ∧ (∀ (p : ReportPrediction) (ps : List ReportPrediction),
          (generate_summary_report (p :: ps)).primary_issue
              = some { label := (pyMaxBy (fun q => q.confidence) p ps).label,
                       confidence := (pyMaxBy (fun q => q.confidence) p ps).confidence,
                       description := "",
                       evidence := (pyMaxBy (fun q => q.confidence) p ps).supporting_tokens }
            ∧ pyMaxBy (fun q => q.confidence) p ps ∈ p :: ps
            ∧ ∀ q ∈ p :: ps,
                q.confidence ≤ (pyMaxBy (fun q => q.confidence) p ps).confidence) := by
  refine ⟨?_, ?_, ?_⟩
  · intro e re cs
    simp [RootCauseAnalysisEngine.analyze, rawPredictions, registryClassify,
      registryGo_nil, sortDescBy, sortDescAux, FallbackClassifier.classify,
      lastResortPredictions, bestSegment, ClassifierCoordinator.coordinate]
  · intro predictions
    match predictions with
    | [] => simp [generate_summary_report]
    | p :: ps => simp [generate_summary_report]
  · intro p ps
    refine ⟨rfl, ?_, ?_⟩
    · rcases pyMaxBy_mem (fun q => q.confidence) p ps with h | h
      · rw [h]; exact List.mem_cons_self _ _
      · exact List.mem_cons_of_mem _ h
    · intro q hq
      rcases List.mem_cons.mp hq with rfl | hq
      · exact (pyMaxBy_le (fun r => r.confidence) q ps).1
      · exact (pyMaxBy_le (fun r => r.confidence) p ps).2 q hq

def c8r0 : ReportPrediction :=
  { label := "A", confidence := 0.5, supporting_tokens := [], references := [] }

def c8r1 : ReportPrediction :=
  { label := "B", confidence := 0.9, supporting_tokens := ["tok"], references := [] }

/-- C8, witness: the report theorem applied to two concrete predictions. -/
theorem C8_witness :
    (generate_summary_report [c8r0, c8r1]).primary_issue
        = some { label := (pyMaxBy (fun q => q.confidence) c8r0 [c8r1]).label,
                 confidence := (pyMaxBy (fun q => q.confidence) c8r0 [c8r1]).confidence,
                 description := "",
                 evidence := (pyMaxBy (fun q => q.confidence) c8r0 [c8r1]).supporting_tokens }
      ∧ c8r0.confidence ≤ (pyMaxBy (fun q => q.confidence) c8r0 [c8r1]).confidence :=
  ⟨(C8_empty_and_report.2.2 c8r0 [c8r1]).1,
   (C8_empty_and_report.2.2 c8r0 [c8r1]).2.2 c8r0 (by simp)⟩

theorem append_segment_ne_empty (s : String) : ("segment_" ++ s) ≠ "" := by
  intro h
  have hl := congrArg String.length h
  rw [String.length_append] at hl
  rw [show "segment_".length = 8 from rfl, show "".length = 0 from rfl] at hl
  omega

theorem backfillFrom_idem (i : Nat) (l : List Segment) :
    backfillFrom i (backfillFrom i l) = backfillFrom i l := by
  induction l generalizing i with
  | nil => rfl
  | cons s ss ih =>
      by_cases hc : s.id = none ∨ s.id = some ""
      · have hne : ¬ (({ s with id := some ("segment_" ++ toString i) } : Segment).id = none
            ∨ ({ s with id := some ("segment_" ++ toString i) } : Segment).id = some "") := by
          simp [append_segment_ne_empty]
        simp only [backfillFrom, if_pos hc, if_neg hne, ih]
      · simp only [backfillFrom, if_neg hc, ih]

theorem backfillIds_idem (l : List Segment) :
    backfillIds (backfillIds l) = backfillIds l :=
  backfillFrom_idem 0 l

/-- On a segment list the backfilling leaves unchanged, every classifier of
the registry computes its predictions from that very list. -/
theorem registryGo_stable (cs : List RuleClassifier) (s : List Segment)
    (hs : backfillIds s = s) :
    registryGo cs s = (s, (cs.map (fun c => rulePreds c s)).flatten) := by
  induction cs with
  | nil => simp [registryGo]
  | cons c cs ih =>
      simp only [registryGo, RuleClassifier.classify, hs, ih]
      simp

/-- With at least one registered classifier, the registry backfills the
segment ids once and every classifier then reads the backfilled list. -/
theorem registryGo_eq (cs : List RuleClassifier) (s : List Segment) (hcs : cs ≠ []) :
    registryGo cs s
      = (backfillIds s, (cs.map (fun c => rulePreds c (backfillIds s))).flatten) := by
  match cs with
  | [] => exact absurd rfl hcs
  | c :: cs =>
      simp only [registryGo, RuleClassifier.classify]
      rw [registryGo_stable cs (backfillIds s) (backfillIds_idem s)]
      simp

theorem registryClassify_idem (cs : List RuleClassifier) (segments : List Segment) :
    registryClassify cs ((registryClassify cs segments).1)
      = registryClassify cs segments := by
  by_cases hcs : cs = []
  · subst hcs
    simp [registryClassify, registryGo]
  · have h1 := registryGo_eq cs segments hcs
    have h2 := registryGo_eq cs (backfillIds segments) hcs
    simp only [registryClassify, h1, h2, backfillIds_idem]

open RootCauseAnalysisEngine in
theorem analyze_idem (e : RootCauseAnalysisEngine) (re : RegexEngine)
    (cs : List RuleClassifier) (segments : List Segment) :
    RootCauseAnalysisEngine.analyze e re cs
        ((RootCauseAnalysisEngine.analyze e re cs segments).1)
      = RootCauseAnalysisEngine.analyze e re cs segments := by
  have hreg := registryClassify_idem cs segments
  have hfst : (RootCauseAnalysisEngine.analyze e re cs segments).1
      = (registryClassify cs segments).1 := rfl
  rw [hfst]
  simp only [RootCauseAnalysisEngine.analyze, rawPredictions, hreg]

namespace ConfidenceScorer

/-- Cache soundness: every cached value is the pure specificity of its key. -/
def goodCache (cache : List (String × ℚ)) : Prop :=
  ∀ (p : String) (v : ℚ), cache.lookup p = some v → v = calculatePatternSpecificity p

theorem goodCache_nil : goodCache [] := by
  intro p v h
  simp [List.lookup] at h

theorem goodCache_step (cache : List (String × ℚ)) (pattern : String)
    (h : goodCache cache) : goodCache (cachedPatternSpecificity cache pattern).2 := by
  unfold cachedPatternSpecificity
  cases hl : cache.lookup pattern with
  | some v => simpa [hl] using h
  | none =>
      simp only [hl]
      intro p v hp
      by_cases hpp : p = pattern
      · subst hpp
        simp only [List.lookup, beq_self_eq_true, Option.some.injEq] at hp
        exact hp.symm
      · have hb : (p == pattern) = false := beq_eq_false_iff_ne.mpr hpp
        simp only [List.lookup, hb] at hp
        exact h p v hp

theorem cachedPatternSpecificity_val (cache : List (String × ℚ)) (pattern : String)
    (h : goodCache cache) :
    (cachedPatternSpecificity cache pattern).1 = calculatePatternSpecificity pattern := by
  unfold cachedPatternSpecificity
  cases hl : cache.lookup pattern with
  | some v => simpa [hl] using h pattern v hl
  | none => simp [hl]

theorem goodCache_run (prior : List String) (cache : List (String × ℚ))
    (h : goodCache cache) : goodCache (runSpecCalls cache prior) := by
  induction prior generalizing cache with
  | nil => exact h
  | cons p ps ih => exact ih _ (goodCache_step cache p h)

end ConfidenceScorer

open ConfidenceScorer in
/-- C9: running `analyze()` a second time on the same (mutated-in-place)
segment list yields the identical prediction list and segment state — the
id backfilling is idempotent and everything else is a pure function of the
backfilled segments; and the pattern-specificity cache, after any sequence
of prior calls starting from the scorer's empty cache, still returns exactly
the pure specificity value for every pattern. -/
theorem C9_idempotent (e : RootCauseAnalysisEngine) (re : RegexEngine)
    (cs : List RuleClassifier) (segments : List Segment) :
    (RootCauseAnalysisEngine.analyze e re cs
          ((RootCauseAnalysisEngine.analyze e re cs segments).1)
        = RootCauseAnalysisEngine.analyze e re cs segments)
      ∧ ∀ (prior : List String) (pattern : String),
          (cachedPatternSpecificity (runSpecCalls [] prior) pattern).1
            = calculatePatternSpecificity pattern :=
  ⟨analyze_idem e re cs segments,
   fun prior pattern =>
     cachedPatternSpecificity_val _ pattern (goodCache_run prior [] goodCache_nil)⟩

/-- A segment whose `score` attribute is exactly `1.0` (object identity 7),
making the fallback base confidence `0.3 + 1.0 * 0.3 = 0.6` hit the ceiling. -/
def scoreOneSegment : Segment :=
  ⟨none, 7, some 1.0, none, none, none, none, none, none⟩

open FallbackClassifier in
/-- Evaluation of the fallback classifier on `scoreOneSegment`: one
`UNCLASSIFIED` prediction at confidence `min(0.6, 0.3 + 1.0*0.3) = 0.6`. -/
theorem fallback_classify_scoreOne :
    FallbackClassifier.classify {} emptyRegexEngine [scoreOneSegment]
      = [{ label := "UNCLASSIFIED", confidence := 0.6, segment_ids := ["segment_7"],
           supporting_tokens := [], provider_context := [],
           classifier_id := "FallbackClassifier" }] := by
  simp [FallbackClassifier.classify, suggestLabel, extractDiagnosticTokens,
    extractProviderContext, heuristic_patterns, scoreOneSegment, emptyRegexEngine,
    sortDescBy, sortDescAux, insertDescBy, Segment.idAttr]
  norm_num
  rfl

/-- C7, counterexample: the fallback prediction for `scoreOneSegment` has
confidence exactly equal to the configured ceiling (default `0.6`), not
strictly below it. -/
theorem C7_counterexample :
    (FallbackClassifier.classify {} emptyRegexEngine [scoreOneSegment]).map
        (fun p => p.confidence) = [({} : FallbackClassifier).confidence_ceiling]
      ∧ ¬ (({} : FallbackClassifier).confidence_ceiling
            < ({} : FallbackClassifier).confidence_ceiling) := by
  constructor
  · rw [fallback_classify_scoreOne]
    norm_num
  · exact lt_irrefl _

open FallbackClassifier in
/-- C7, amended: every prediction produced by `FallbackClassifier.classify`
has confidence at most (`≤`, not strictly below) the configured
`confidence_ceiling` — both confidence formulas are `min(ceiling, ·)`, and
the bound is attained (see `C7_counterexample`). -/
theorem C7_amended (fc : FallbackClassifier) (re : RegexEngine)
    (segments : List Segment) (p : RootCausePrediction)
    (hp : p ∈ FallbackClassifier.classify fc re segments) :
    p.confidence ≤ fc.confidence_ceiling := by
  by_cases hs : segments = []
  · subst hs
    simp [FallbackClassifier.classify] at hp
  · simp only [FallbackClassifier.classify, if_neg hs] at hp
    have hp2 := List.mem_of_mem_take hp
    rw [mem_sortDescBy] at hp2
    rcases List.mem_map.mp hp2 with ⟨seg, _, rfl⟩
    simp only []
    split
    · exact min_le_left _ _
    · exact min_le_left _ _

/-- C7, witness: the amended bound at the concrete ceiling-attaining input. -/
theorem C7_witness :
    ({ label := "UNCLASSIFIED", confidence := 0.6, segment_ids := ["segment_7"],
       supporting_tokens := [], provider_context := [],
       classifier_id := "FallbackClassifier" } : RootCausePrediction).confidence
      ≤ ({} : FallbackClassifier).confidence_ceiling :=
  C7_amended {} emptyRegexEngine [scoreOneSegment] _
    (by rw [fallback_classify_scoreOne]; simp)

def c4seg1 : GroupedSegment := ⟨1, []⟩

def c4seg2 : GroupedSegment := ⟨2, []⟩

/-- C4, failing input: on the two-segment input `[c4seg1, c4seg2]` with the
default window size 5, `ContextAnalyzer.analyze` yields segment 2 twice and
never yields segment 1 — the flush loop yields the buffer midpoint but pops
the front, so the claimed "every input segment exactly once" fails. -/
theorem C4_failing_eval :
    (ContextAnalyzer.analyze {} [c4seg1, c4seg2]).map (fun g => g.tag) = [2, 2] := by
  decide

/-- C5: `TokenConflictResolver` cannot be constructed at all — evaluating the
`severity_order` dict literal raises `AttributeError` at `TokenType.TEST_ERROR`
(the enumeration defines no such member), so `resolve_with_patterns` never
runs and the specified severity-based resolution is unreachable; here at the
concrete failing input `provider=None`. -/
theorem C5_constructor_attribute_error :
    TokenConflictResolver.construct none
      = Except.error "AttributeError: type object TokenType has no attribute TEST_ERROR" :=
  rfl

/-- C10: for every provider argument, constructing `TokenConflictResolver`
fails with the `AttributeError` for `TokenType.TEST_ERROR` (evaluated before
`CI_ERROR`, which is equally undefined), so `resolve_with_patterns` is
unreachable through this class. -/
theorem C10_resolver_unconstructible (provider : Option String) :
    TokenConflictResolver.construct provider
      = Except.error "AttributeError: type object TokenType has no attribute TEST_ERROR" :=
  rfl

end CICore
